import Mathlib

/-!
Verification development for the usebin HTTP-to-NNTP gateway.

The definitions below are a shallow embedding of the program's range and
precondition engine (http_fs.go), the connection-pool dispatcher and
controller (pool source file), and the request handlers (server source
file, the revision that serves the /m/, /d/ and /h/ routes).  Strings are
embedded as lists of characters, byte buffers as lists of naturals, and
the Go int64 arithmetic as Int with explicit overflow checks where the
source checks them.
-/

/-- Helper: the character list of a string literal, for concrete inputs. -/
def chars (s : String) : List Char := s.data

/-! ## Range engine (http_fs.go) -/

/-- Embeds net/textproto isASCIISpace: space, tab, newline, carriage return. -/
def isASCIISpace (c : Char) : Bool :=
  c = ' ' || c = '\t' || c = '\n' || c = '\r'

/-- Embeds textproto.TrimString: strip leading and trailing ASCII space. -/
def textprotoTrim (s : List Char) : List Char :=
  ((s.dropWhile isASCIISpace).reverse.dropWhile isASCIISpace).reverse

/-- Embeds strings.Cut(ra, "-"): split at the first dash, none if absent. -/
def cutDash : List Char → Option (List Char × List Char)
  | [] => none
  | c :: rest =>
    if c = '-' then some ([], rest)
    else match cutDash rest with
      | none => none
      | some (a, b) => some (c :: a, b)

/-- Embeds strings.Split(s, ","): the comma-separated pieces, empties kept. -/
def splitOnComma : List Char → List (List Char)
  | [] => [[]]
  | c :: rest =>
    if c = ',' then [] :: splitOnComma rest
    else match splitOnComma rest with
      | [] => [[c]]
      | piece :: more => (c :: piece) :: more

/-- Decimal value of a digit list (caller has checked the digits). -/
def digitsToNat : List Char → Nat
  | [] => 0
  | ds => ds.foldl (fun acc c => acc * 10 + (c.toNat - '0'.toNat)) 0

/-- Embeds strconv.ParseInt(s, 10, 64): optional sign, decimal digits,
none on empty input, a bad digit, or a value outside the int64 range. -/
def goParseInt64 (s : List Char) : Option Int :=
  match s with
  | [] => none
  | _ =>
    let signed : Bool × List Char :=
      match s with
      | '+' :: rest => (false, rest)
      | '-' :: rest => (true, rest)
      | _ => (false, s)
    let neg := signed.1
    let digits := signed.2
    if digits = [] then none
    else if !digits.all (fun c => '0' ≤ c && c ≤ '9') then none
    else
      let n := digitsToNat digits
      if neg then
        if n ≤ 2 ^ 63 then some (-(n : Int)) else none
      else
        if n ≤ 2 ^ 63 - 1 then some (n : Int) else none

/-- Embeds httpRange from http_fs.go: a start offset and a length. -/
structure HttpRange where
  start : Int
  length : Int
deriving DecidableEq, Repr

/-- Classification of one comma-separated item inside a Range header, the
body of the loop in parseRange (http_fs.go). -/
inductive RangeItem where
  /-- The trimmed item was empty and is skipped. -/
  | skip : RangeItem
  /-- The item is malformed: parseRange fails with a generic error. -/
  | invalid : RangeItem
  /-- start is at or past the size: marked as not overlapping, no failure. -/
  | noOverlap : RangeItem
  /-- A well-formed byte range. -/
  | ok (r : HttpRange) : RangeItem
deriving DecidableEq, Repr

/-- Embeds the branch of the parseRange loop body after the item has been
trimmed and cut at its first dash (http_fs.go lines 162-207): s and e are
the trimmed pieces before and after the dash; an empty s selects the
suffix form, an empty e the open-ended form, and the bounded form clamps
the end to size-1 after requiring start not above end. -/
def parseRangeCut (size : Int) (s e : List Char) : RangeItem :=
  if s = [] then
    if e = [] || e.head? = some '-' then .invalid
    else
      match goParseInt64 e with
      | none => .invalid
      | some i =>
        if i < 0 then .invalid
        else
          let i := if i > size then size else i
          .ok ⟨size - i, i⟩
  else
    match goParseInt64 s with
    | none => .invalid
    | some st =>
      if st < 0 then .invalid
      else if st ≥ size then .noOverlap
      else if e = [] then .ok ⟨st, size - st⟩
      else
        match goParseInt64 e with
        | none => .invalid
        | some en =>
          if st > en then .invalid
          else
            let en := if en ≥ size then size - 1 else en
            .ok ⟨st, en - st + 1⟩

/-- Embeds the loop body of parseRange (http_fs.go lines 153-208): trim the
item, skip it when empty, cut at the first dash, trim both pieces and
classify them. -/
def parseRangeItem (size : Int) (ra : List Char) : RangeItem :=
  let ra := textprotoTrim ra
  if ra = [] then .skip
  else
    match cutDash ra with
    | none => .invalid
    | some (s0, e0) => parseRangeCut size (textprotoTrim s0) (textprotoTrim e0)

/-- The two error values parseRange can produce: the generic invalid-range
error and the errNoOverlap sentinel. -/
inductive RangeErr where
  | invalid : RangeErr
  | noOverlap : RangeErr
deriving DecidableEq, Repr

/-- The accumulation loop of parseRange over the comma-separated items. -/
def parseRangeLoop (size : Int) : List (List Char) → List HttpRange → Bool →
    Except RangeErr (List HttpRange)
  | [], ranges, no =>
    if no && ranges = [] then .error .noOverlap else .ok ranges
  | ra :: rest, ranges, no =>
    match parseRangeItem size ra with
    | .skip => parseRangeLoop size rest ranges no
    | .invalid => .error .invalid
    | .noOverlap => parseRangeLoop size rest ranges true
    | .ok r => parseRangeLoop size rest (ranges ++ [r]) no

/-- Checks that u is an initial segment of s (strings.HasSuffix analogue
for the leading unit check in parseRange). -/
def listStartsWith : List Char → List Char → Bool
  | [], _ => true
  | _ :: _, [] => false
  | c :: u, d :: s => c = d && listStartsWith u s

/-- Embeds parseRange (http_fs.go): empty header parses to no ranges, a
missing bytes= unit is invalid, otherwise the items are folded and
errNoOverlap is produced when ranges were listed but none overlapped. -/
def parseRange (s : List Char) (size : Int) : Except RangeErr (List HttpRange) :=
  if s = [] then .ok []
  else if !listStartsWith (chars "bytes=") s then .error .invalid
  else parseRangeLoop size (splitOnComma (s.drop 6)) [] false

/-- Embeds sumRangesSize (http_fs.go). -/
def sumRangesSize (ranges : List HttpRange) : Int :=
  ranges.foldl (fun acc r => acc + r.length) 0

/-! ## Precondition engine (http_fs.go) -/

/-- Embeds condResult from http_fs.go. -/
inductive CondResult where
  | condNone : CondResult
  | condTrue : CondResult
  | condFalse : CondResult
deriving DecidableEq, Repr

/-- The request fields read by the precondition engine; a header that is
absent is the empty string, exactly what Go's Header.Get returns. -/
structure HttpReq where
  method : String
  ifMatch : String
  ifUnmodifiedSince : String
  ifNoneMatch : String
  ifModifiedSince : String
  ifRange : String
  rangeHeader : String
deriving DecidableEq, Repr

/-- Embeds checkIfMatch: absent gives condNone, otherwise condTrue
(immutable contents, the cached copy is always valid). -/
def checkIfMatch (r : HttpReq) : CondResult :=
  if r.ifMatch = "" then .condNone else .condTrue

/-- Embeds checkIfUnmodifiedSince. -/
def checkIfUnmodifiedSince (r : HttpReq) : CondResult :=
  if r.ifUnmodifiedSince = "" then .condNone else .condTrue

/-- Embeds checkIfModifiedSince: condNone unless a GET/HEAD carries the
header, in which case the source returns condTrue. -/
def checkIfModifiedSince (r : HttpReq) : CondResult :=
  if r.method ≠ "GET" ∧ r.method ≠ "HEAD" then .condNone
  else if r.ifModifiedSince = "" then .condNone
  else .condTrue

/-- Embeds checkIfNoneMatch: absent gives condNone, present gives
condTrue in the source. -/
def checkIfNoneMatch (r : HttpReq) : CondResult :=
  if r.ifNoneMatch = "" then .condNone else .condTrue

/-- Embeds checkIfRange. -/
def checkIfRange (r : HttpReq) : CondResult :=
  if r.method ≠ "GET" ∧ r.method ≠ "HEAD" then .condNone
  else if r.ifRange = "" then .condNone
  else .condTrue

/-- Result of checkPreconditions: whether the handler must stop, the Range
header it should honour, and the status written (304 stands for the
writeNotModified helper, 412 for StatusPreconditionFailed). -/
structure PrecondResult where
  done : Bool
  rangeHeader : String
  written : Option Nat
deriving DecidableEq, Repr

/-- The tail of checkPreconditions: read the Range header and drop it when
checkIfRange answers condFalse. -/
def precondRangeTail (r : HttpReq) : PrecondResult :=
  let rh := r.rangeHeader
  let rh := if rh ≠ "" ∧ checkIfRange r = .condFalse then "" else rh
  ⟨false, rh, none⟩

/-- Embeds checkPreconditions (http_fs.go lines 26-57): If-Match then
If-Unmodified-Since feed a 412 check, the switch on checkIfNoneMatch sends
304 or 412 only in its condFalse arm, the condNone arm consults
checkIfModifiedSince, and every other outcome falls through to the Range
header computation. -/
def checkPreconditions (r : HttpReq) : PrecondResult :=
  let ch0 := checkIfMatch r
  let ch := if ch0 = CondResult.condNone then checkIfUnmodifiedSince r else ch0
  if ch = .condFalse then ⟨true, "", some 412⟩
  else
    match checkIfNoneMatch r with
    | .condFalse =>
      if r.method = "GET" ∨ r.method = "HEAD" then ⟨true, "", some 304⟩
      else ⟨true, "", some 412⟩
    | .condNone =>
      if checkIfModifiedSince r = .condFalse then ⟨true, "", some 304⟩
      else precondRangeTail r
    | .condTrue => precondRangeTail r

/-! ## GET response composition (handler source, lines 248-339) -/

/-- Decimal rendering of an Int, as fmt.Sprintf with the d verb writes it. -/
def intToChars (i : Int) : List Char := (toString i).data

/-- Embeds httpRange.contentRange: the string bytes start-end/size. -/
def contentRangeStr (r : HttpRange) (size : Int) : List Char :=
  chars "bytes " ++ intToChars r.start ++ chars "-" ++
    intToChars (r.start + r.length - 1) ++ chars "/" ++ intToChars size

/-- What the handler hands to io.Copy: the whole buffer, a single-range
slice, or the multipart pipe writing the listed ranges; nothing at all on
the 416 early return. -/
inductive SendContent where
  | whole (b : List Nat)
  | slice (b : List Nat)
  | parts (rs : List HttpRange)
  | nothing
deriving DecidableEq, Repr

/-- The response the GET handler computes after the body has been buffered:
the status written, the Content-Range header if set, the Content-Length
header if set, and the content handed to io.Copy.  contentLength is none
on the 416 early return, which writes no Content-Length, and in the
multipart branch, where the source calls rangesMIMESize, a function that
is not among the provided sources (per the spec it counts the MIME framing
bytes plus the sum of range lengths); no claim depends on that value. -/
structure GetServe where
  status : Nat
  contentRange : Option (List Char)
  contentLength : Option Int
  content : SendContent
deriving DecidableEq, Repr

/-- Embeds the range-serving tail of handleMessageGET (handler source,
lines 260-339): ranges are parsed only when the buffered size is positive,
a parse failure answers 416 with a bytes */size Content-Range exactly when
the error is errNoOverlap, an overlong range sum discards the ranges, one
range yields 206 with a slice, several yield 206 multipart. -/
def composeGet (content : List Nat) (rangeReq : List Char) : GetServe :=
  let size : Int := content.length
  let parsed : Except RangeErr (List HttpRange) :=
    if size > 0 then parseRange rangeReq size else .ok []
  match parsed with
  | .error e =>
    { status := 416
      contentRange := if e = .noOverlap then some (chars "bytes */" ++ intToChars size) else none
      contentLength := none
      content := .nothing }
  | .ok ranges0 =>
    let ranges := if sumRangesSize ranges0 > size then [] else ranges0
    match ranges with
    | [ra] =>
      { status := 206
        contentRange := some (contentRangeStr ra size)
        contentLength := some ra.length
        content := .slice ((content.drop ra.start.toNat).take ra.length.toNat) }
    | [] =>
      { status := 200
        contentRange := none
        contentLength := some size
        content := .whole content }
    | rs =>
      { status := 206
        contentRange := none
        contentLength := none
        content := .parts rs }

/-! ## Server pool dispatcher (pool source, Pool.Get) -/

/-- Embeds NNTPServer from the pool source. -/
structure NNTPServer where
  Host : String
  User : String
  Pass : String
  TLS : Bool
  Posting : Bool
  Connections : Nat
deriving DecidableEq, Repr

/-- The walk of Pool.Get (pool source, lines 79-93), with the drawn start
index r as a parameter: r is the value the source derives at lines 74-76
by seeding math/rand with the first 8 bytes of SHA-256(messageID), read
little-endian, and calling Intn(len(servers)); the walk visits i = 0, 1,
..., N-1, checks the Posting filter on the server at n = (i + r) mod N,
counts matches in tries, and, once tries exceeds retry, sends the request
for index i - the loop counter, not the walked index n - to the
controller.  none is ErrNoMoreServers. -/
def poolGetWalkAux (servers : List NNTPServer) (posting : Bool) (retry r : Nat) :
    Nat → Nat → Nat → Option Nat
  | 0, _, _ => none
  | rem + 1, i, tries =>
    let n := (i + r) % servers.length
    match servers.get? n with
    | none => none
    | some server =>
      if server.Posting || !posting then
        if tries + 1 > retry then some i
        else poolGetWalkAux servers posting retry r rem (i + 1) (tries + 1)
      else poolGetWalkAux servers posting retry r rem (i + 1) tries

/-- Pool.Get's server choice: the index it requests a connection for, or
none for ErrNoMoreServers. -/
def poolGetWalk (servers : List NNTPServer) (posting : Bool) (retry r : Nat) : Option Nat :=
  poolGetWalkAux servers posting retry r servers.length 0 0

/-! ## GET/HEAD retry loop (handler source, lines 222-246) -/

/-- What one iteration of the retry loop observes: the pool answer and,
when a connection arrives, the outcome of the NNTP command on it. -/
inductive Attempt where
  /-- Pool.Get returned ErrNoMoreServers. -/
  | noMoreServers : Attempt
  /-- Pool.Get returned some other error. -/
  | poolError : Attempt
  /-- CmdArticle (or CmdHead) failed with a typed NNTP protocol error. -/
  | connProto : Attempt
  /-- CmdArticle (or CmdHead) failed with a transport error. -/
  | connTrans : Attempt
  /-- CmdArticle (or CmdHead) succeeded. -/
  | connOk : Attempt
deriving DecidableEq, Repr

/-- A connection disposition the handler performs on the pool. -/
inductive PoolAction where
  | put : PoolAction
  | close : PoolAction
deriving DecidableEq, Repr

/-- How the retry loop ends. -/
inductive LoopExit where
  /-- The loop broke on ErrNoMoreServers and the handler wrote 404. -/
  | notFound404 : LoopExit
  /-- A non-sentinel pool error: the handler wrote 500. -/
  | pool500 : LoopExit
  /-- A transport error: the handler wrote 500; the deferred block
  closes the connection. -/
  | trans500 : LoopExit
  /-- The command succeeded; the handler goes on to read the body (the
  connection is returned via the deferred Put after that). -/
  | found : LoopExit
  /-- The attempt schedule ended before the loop did; unreachable against
  the real pool, whose Get answers ErrNoMoreServers once the retry count
  reaches the number of matching servers. -/
  | ranOffSchedule : LoopExit
deriving DecidableEq, Repr

/-- Embeds the retry loop of handleMessageGET (handler source, lines
222-246; handleMessageHead and the raw GET handler share the shape): a
protocol error Puts the connection back and continues with the next
retry count, a transport error stops with 500 and the deferred Close,
ErrNoMoreServers breaks out to the 404 write. -/
def getRetryLoop : List Attempt → LoopExit × List PoolAction
  | [] => (.ranOffSchedule, [])
  | a :: rest =>
    match a with
    | .noMoreServers => (.notFound404, [])
    | .poolError => (.pool500, [])
    | .connProto =>
      let r := getRetryLoop rest
      (r.1, .put :: r.2)
    | .connTrans => (.trans500, [.close])
    | .connOk => (.found, [])

/-! ## POST handler (handler source, lines 352-448) -/

/-- The pool answer a POST sees, and the CmdPost outcome when a
connection was obtained. -/
inductive PostCmdRes where
  | ok : PostCmdRes
  | postingFailure : PostCmdRes
  | protoOther : PostCmdRes
  | transport : PostCmdRes
deriving DecidableEq, Repr

/-- Result of the single Pool.Get(true, messageID, 0) call of the POST
handler. -/
inductive PostPoolRes where
  | noMoreServers : PostPoolRes
  | otherPoolErr : PostPoolRes
  | conn (res : PostCmdRes) : PostPoolRes
deriving DecidableEq, Repr

/-- What the POST handler did: the status it wrote (none when it returned
without calling WriteHeader, which makes net/http send 200 with an empty
body), whether it logged, and the deferred pool disposition. -/
structure PostOutcome where
  status : Option Nat
  logged : Bool
  action : Option PoolAction
deriving DecidableEq, Repr

/-- Embeds io.LimitReader(body, limit) read to exhaustion, as CmdPost
does with the article body. -/
def limitReaderAll (body : List Nat) (limit : Nat) : List Nat :=
  body.take limit

/-- Embeds the dispatch-and-post tail of handleMessagePOST (handler
source, lines 405-448) together with the article body it gives CmdPost:
the body is the request body behind io.LimitReader(ArticleSizeLimit) -
nothing is buffered and no emptiness or overflow test is made;
ErrNoMoreServers logs and returns without writing a status; a posting
failure writes 409, any other NNTP protocol error 500 with the deferred
Put, a transport error 500 with the deferred Close.  The second component
is the body CmdPost consumed, empty when no CmdPost was issued. -/
def handleMessagePOSTModel (reqBody : List Nat) (limit : Nat) (g : PostPoolRes) :
    PostOutcome × List Nat :=
  let body := limitReaderAll reqBody limit
  match g with
  | .noMoreServers => (⟨none, true, none⟩, [])
  | .otherPoolErr => (⟨some 500, true, none⟩, [])
  | .conn c =>
    match c with
    | .ok => (⟨some 200, true, some .put⟩, body)
    | .postingFailure => (⟨some 409, true, some .put⟩, body)
    | .protoOther => (⟨some 500, true, some .put⟩, body)
    | .transport => (⟨some 500, true, some .close⟩, body)

/-! ## Subject synthesis of the POST handler (handler source, lines 390-401) -/

/-- A textproto.MIMEHeader with canonical keys: key to value list. -/
def GoHeader : Type := List (String × List String)

/-- Header.Get: the first value under the key, or the empty string. -/
def hGet (h : GoHeader) (k : String) : String :=
  match h.lookup k with
  | some (v :: _) => v
  | _ => ""

/-- Header.Set: replace the key's values with the one given. -/
def hSet (h : GoHeader) (k v : String) : GoHeader :=
  (k, [v]) :: h.filter (fun e => e.1 ≠ k)

/-- Embeds strings.Cut at an arbitrary character. -/
def cutAtChar (sep : Char) : List Char → Option (List Char × List Char)
  | [] => none
  | c :: rest =>
    if c = sep then some ([], rest)
    else match cutAtChar sep rest with
      | none => none
      | some (a, b) => some (c :: a, b)

/-- Embeds strings.SplitN(s, sep-char, 2). -/
def goSplitN2 (sep : Char) (s : List Char) : List (List Char) :=
  match cutAtChar sep s with
  | none => [s]
  | some (a, b) => [a, b]

/-- Embeds the Subject block of handleMessagePOST (handler source, lines
390-401): when neither an X-Usenet-Subject header nor the s query is
present, the source Sets Subject to the part of the short id before the
first at sign and then unconditionally Sets it again to the full short
id. -/
def synthSubject (h0 : GoHeader) (queryS : String) (shortID : String) : GoHeader :=
  if hGet h0 "Subject" = "" then
    if queryS ≠ "" then hSet h0 "Subject" queryS
    else
      let parts := goSplitN2 '@' shortID.data
      let h1 :=
        if parts.length > 0 then
          hSet h0 "Subject" (String.mk (parts.headD []))
        else h0
      hSet h1 "Subject" shortID
  else h0

/-! ## Pool controller (pool source, NewPool and Pool.loop) -/

/-- A Get request parked with the controller: the server index it was
issued for and the identity of its reply channel. -/
structure GetReq where
  i : Nat
  id : Nat
deriving DecidableEq, Repr

/-- Embeds poolIdle: a connection with the time it went idle. -/
structure PoolIdle where
  conn : Nat
  idleStart : Int
deriving DecidableEq, Repr

/-- A send on some Get request's reply channel: the target channel, the
connection delivered, and whether it carried an allocation error. -/
structure Reply where
  getId : Nat
  conn : Option Nat
  isErr : Bool
deriving DecidableEq, Repr

/-- The controller-owned state of Pool.loop: connMap, the per-server idle
lists, counters and waiter queues, plus the set of allocation goroutines
in flight and the trace of replies sent, which record the communication
the Go code performs through channels. -/
structure PoolState where
  servers : List NNTPServer
  idleExpiry : Int
  connMap : List (Nat × Nat)
  idles : List (List PoolIdle)
  counters : List Nat
  queue : List (List GetReq)
  allocating : List GetReq
  replies : List Reply
deriving DecidableEq, Repr

/-- Go uint64 decrement with wraparound, as the source's counters[i]--. -/
def usub64 (c : Nat) : Nat :=
  if c = 0 then 2 ^ 64 - 1 else c - 1

/-- Embeds NewPool's copy of the server definitions: a Connections value
of 0 defaults to 50. -/
def newPoolServers (servers : List NNTPServer) : List NNTPServer :=
  servers.map (fun s => if s.Connections = 0 then { s with Connections := 50 } else s)

/-- The controller state NewPool starts its loop with. -/
def newPoolState (servers : List NNTPServer) (idleExpiry : Int) : PoolState :=
  { servers := newPoolServers servers
    idleExpiry := idleExpiry
    connMap := []
    idles := List.replicate servers.length []
    counters := List.replicate servers.length 0
    queue := List.replicate servers.length []
    allocating := []
    replies := [] }

/-- Embeds processGet (pool source, lines 137-157): hand back the head of
the idle list if any, else, when a slot is left, take it and spawn an
allocation; some means consumed, none means the caller must queue. -/
def processGet (s : PoolState) (req : GetReq) : Option PoolState :=
  match s.servers.get? req.i with
  | none => none
  | some server =>
    match s.idles.getD req.i [] with
    | idle :: restIdle =>
      some { s with
        idles := s.idles.set req.i restIdle
        replies := s.replies ++ [⟨req.id, some idle.conn, false⟩] }
    | [] =>
      let c := s.counters.getD req.i 0
      if c < server.Connections then
        some { s with
          counters := s.counters.set req.i ((c + 1) % 2 ^ 64)
          allocating := s.allocating ++ [req] }
      else none

/-- Embeds the processQueue loop body (pool source, lines 158-165): feed
queued requests to processGet; on the first one that is not consumed,
truncate the queue to the unconsumed tail and stop.  When every queued
request is consumed the loop falls off the end and - exactly as in the
source - the queue slice is left as it was. -/
def processQueueAux (s : PoolState) (i : Nat) : Nat → List GetReq → PoolState
  | _, [] => s
  | j, g :: rest =>
    match processGet s g with
    | some s2 => processQueueAux s2 i (j + 1) rest
    | none => { s with queue := s.queue.set i ((s.queue.getD i []).drop j) }

/-- Embeds processQueue (pool source, lines 158-165). -/
def processQueue (s : PoolState) (i : Nat) : PoolState :=
  processQueueAux s i 0 (s.queue.getD i [])

/-- Embeds the idle purge over one server's idle list (pool source, lines
217-228): keep entries strictly younger than the expiry cutoff, close the
rest and decrement the counter once for each. -/
def purgeServer (expired : Int) : List PoolIdle → Nat → List PoolIdle × Nat
  | [], c => ([], c)
  | idle :: rest, c =>
    if expired < idle.idleStart then
      let r := purgeServer expired rest c
      (idle :: r.1, r.2)
    else purgeServer expired rest (usub64 c)

/-- The purge applied to every server's idle list and counter in step. -/
def purgeZip (expired : Int) : List (List PoolIdle) → List Nat → List (List PoolIdle × Nat)
  | [], _ => []
  | a :: rest, cs => purgeServer expired a (cs.headD 0) :: purgeZip expired rest (cs.tail)

/-- One inbound event of the controller's select. -/
inductive PoolEvent where
  /-- A request arriving on getChan. -/
  | get (req : GetReq) : PoolEvent
  /-- A connection arriving on putChan, with the wall-clock time the
  controller would stamp an idle entry with. -/
  | put (conn : Nat) (now : Int) : PoolEvent
  /-- A connection arriving on closeChan. -/
  | close (conn : Nat) : PoolEvent
  /-- An allocation goroutine finishing on deferredChan. -/
  | allocResult (req : GetReq) (conn : Nat) (ok : Bool) : PoolEvent
  /-- The idle-purge timer firing at the given time. -/
  | tick (now : Int) : PoolEvent
deriving DecidableEq, Repr

/-- Embeds one iteration of the select in Pool.loop (pool source, lines
167-231).  The put arm hands the connection to the head waiter or idles
it; the close arm frees the slot and drives the queue; the allocation arm
records the connection, replies, and on failure frees the slot and drives
the queue; the tick arm closes expired idle entries and frees their slots
- and, as in the source, touches neither the waiter queue nor connMap. -/
def stepPool (s : PoolState) : PoolEvent → PoolState
  | .get req =>
    match processGet s req with
    | some s2 => s2
    | none => { s with queue := s.queue.set req.i ((s.queue.getD req.i []) ++ [req]) }
  | .put c now =>
    match List.lookup c s.connMap with
    | some i =>
      match s.queue.getD i [] with
      | g :: restQ =>
        { s with
          queue := s.queue.set i restQ
          replies := s.replies ++ [⟨g.id, some c, false⟩] }
      | [] =>
        { s with idles := s.idles.set i ((s.idles.getD i []) ++ [⟨c, now⟩]) }
    | none => s
  | .close c =>
    match List.lookup c s.connMap with
    | some i =>
      let s2 := { s with
        counters := s.counters.set i (usub64 (s.counters.getD i 0))
        connMap := s.connMap.filter (fun e => e.1 ≠ c) }
      processQueue s2 i
    | none => s
  | .allocResult req c ok =>
    let s0 := { s with allocating := s.allocating.erase req }
    let s1 := if ok then { s0 with connMap := s0.connMap ++ [(c, req.i)] } else s0
    let s2 := { s1 with replies := s1.replies ++ [⟨req.id, if ok then some c else none, !ok⟩] }
    if ok then s2
    else
      let s3 := { s2 with counters := s2.counters.set req.i (usub64 (s2.counters.getD req.i 0)) }
      processQueue s3 req.i
  | .tick now =>
    let expired := now - s.idleExpiry
    let combined := purgeZip expired s.idles s.counters
    { s with idles := combined.map Prod.fst, counters := combined.map Prod.snd }

/-- The controller run over a list of events. -/
def runPool (s : PoolState) (events : List PoolEvent) : PoolState :=
  events.foldl stepPool s

/-- A single posting server capped at one connection. -/
def oneConnServer : NNTPServer := ⟨"s0", "", "", false, true, 1⟩

/-- The event sequence that exhibits the stale-waiter defect: two workers
request connections, the first connection is allocated, used and Closed,
which re-drives the queued second request - draining the queue completely,
which processQueue does not record - the second connection is allocated,
used and Put, and the Put hands it to the stale queue entry of the
already-served second request. -/
def staleQueueTrace : List PoolEvent :=
  [.get ⟨0, 1⟩, .get ⟨0, 2⟩, .allocResult ⟨0, 1⟩ 101 true, .close 101,
   .allocResult ⟨0, 2⟩ 102 true, .put 102 50]

/-- Two servers of which only the second may post. -/
def twoServersPostingSecond : List NNTPServer :=
  [⟨"s0", "", "", false, false, 50⟩, ⟨"s1", "", "", false, true, 50⟩]

/-- A controller state with one waiter parked at capacity and one idle
entry old enough to purge, fed directly to the purge step. -/
def purgeDemoState : PoolState :=
  { servers := [oneConnServer]
    idleExpiry := 60
    connMap := [(7, 0)]
    idles := [[⟨7, 0⟩]]
    counters := [1]
    queue := [[⟨0, 42⟩]]
    allocating := []
    replies := [] }

/-- Where the body-read gate of handleMessageGET sends the request. -/
inductive ReadGateResult where
  /-- Both reads passed: the handler goes on to the range logic with the
  buffered bytes buf[:n]. -/
  | serve (content : List Nat) : ReadGateResult
  /-- io.ReadFull returned an error other than ErrUnexpectedEOF - for an
  empty body it returns (0, io.EOF) - and the handler writes 500. -/
  | readError500 : ReadGateResult
  /-- The probe read found the body longer than the buffer: 507. -/
  | overflow507 : ReadGateResult
deriving DecidableEq, Repr

/-- Embeds the body-read gate of handleMessageGET (handler source, lines
248-259): io.ReadFull(article.Body, buf) reads n = min(len(body),
len(buf)) bytes and returns nil when the buffer was filled, io.EOF when
nothing was read, and ErrUnexpectedEOF in between; the handler clears
only ErrUnexpectedEOF and answers 500 for every other non-nil error -
io.EOF for an empty body included - and then probes article.Body.Read(nil),
answering 507 unless it yields io.EOF, which it does exactly when the
body did not exceed the buffer. -/
def readFullGate (body : List Nat) (bufLen : Nat) : ReadGateResult :=
  let n := min body.length bufLen
  if body.length < bufLen then
    if n = 0 then .readError500
    else .serve (body.take n)
  else
    if body.length > bufLen then .overflow507
    else .serve (body.take n)

/-- The GET handler from the successful NNTP command to the composed
response: the read gate in front of the range logic. -/
def handleGetServe (body : List Nat) (bufLen : Nat) (rangeReq : List Char) : GetServe :=
  match readFullGate body bufLen with
  | .serve content => composeGet content rangeReq
  | .readError500 => ⟨500, none, none, .nothing⟩
  | .overflow507 => ⟨507, none, none, .nothing⟩

/-! ## Claim theorems -/

/-- C1: the claim states that Pool.Get walks indices (r + j) mod N,
filters on Posting for posting requests, and requests the connection for
the k-th matching walked index.  The source instead sends the loop
counter i on getChan while checking the filter on the walked index
(i + r) mod N: with two servers of which only the second may post, a POST
walk with r = 1 and k = 0 matches at walked index (0 + 1) mod 2 = 1 yet
requests a connection for index 0, the server that may not post. -/
theorem c1_walk_requests_loop_counter_not_walked_index :
    poolGetWalk twoServersPostingSecond true 0 1 = some 0 ∧
    (twoServersPostingSecond.get? 0).map NNTPServer.Posting = some false ∧
    (twoServersPostingSecond.get? 1).map NNTPServer.Posting = some true ∧
    (0 + 1) % twoServersPostingSecond.length = 1 :=
  ⟨rfl, rfl, rfl, rfl⟩

/-- C2: the claim states that a request with If-None-Match gets 304
(GET/HEAD) or 412 (otherwise) before any NNTP command, and a GET/HEAD
with If-Modified-Since and no If-None-Match gets 304.  In the source,
checkIfNoneMatch and checkIfModifiedSince answer condTrue when the header
is present, and checkPreconditions reacts only to condFalse, so in all
three cases it returns done = false with nothing written and the handler
goes on to issue the NNTP command. -/
theorem c2_preconditions_never_interrupt :
    checkPreconditions ⟨"GET", "", "", "\"v\"", "", "", ""⟩ = ⟨false, "", none⟩ ∧
    checkPreconditions ⟨"POST", "", "", "\"v\"", "", "", ""⟩ = ⟨false, "", none⟩ ∧
    checkPreconditions ⟨"GET", "", "", "", "Sat, 01 Jan 2022 00:00:00 GMT", "", ""⟩ =
      ⟨false, "", none⟩ :=
  ⟨rfl, rfl, rfl⟩

/-- C4: the claim states that the outstanding count returns to 0 once
every borrowed connection has been Put or Closed, no waiters remain and
idle entries are purged.  Running the controller on staleQueueTrace -
where connection 101 is borrowed and Closed, connection 102 is borrowed
and Put, and both parked requests were answered - ends with an empty
queue, no idle entries, no allocation in flight, yet counters = [1]; the
third reply shows the Put re-serving the already-served request 2 through
the stale queue entry processQueue left behind after draining the queue
completely (on that channel send the real controller blocks forever). -/
theorem c4_outstanding_stuck_at_one_after_full_release :
    (runPool (newPoolState [oneConnServer] 60) staleQueueTrace).counters = [1] ∧
    (runPool (newPoolState [oneConnServer] 60) staleQueueTrace).queue = [[]] ∧
    (runPool (newPoolState [oneConnServer] 60) staleQueueTrace).idles = [[]] ∧
    (runPool (newPoolState [oneConnServer] 60) staleQueueTrace).allocating = [] ∧
    (runPool (newPoolState [oneConnServer] 60) staleQueueTrace).replies =
      [⟨1, some 101, false⟩, ⟨2, some 102, false⟩, ⟨2, some 102, false⟩] :=
  ⟨rfl, rfl, rfl, rfl, rfl⟩

/-- C6: the claim states that a POST for which Pool.Get answers
ErrNoMoreServers responds 500.  The source logs and returns without
calling WriteHeader (so net/http sends 200 with an empty body); it does
log and makes no retry. -/
theorem c6_post_no_servers_writes_no_status :
    handleMessagePOSTModel [7] 4194304 .noMoreServers = (⟨none, true, none⟩, []) ∧
    (handleMessagePOSTModel [7] 4194304 .noMoreServers).1.status ≠ some 500 :=
  ⟨rfl, by decide⟩

/-- C7 counterexample: the claim states the POST handler buffers the body,
answers 507 when it exceeds ArticleSizeLimit and 400 when it is empty.
With ArticleSizeLimit = 4 the source posts an empty body and answers 200,
not 400, and silently truncates a five-byte body to four and answers 200,
not 507. -/
theorem c7_empty_and_oversize_bodies_pass_through :
    handleMessagePOSTModel [] 4 (.conn .ok) = (⟨some 200, true, some .put⟩, []) ∧
    (handleMessagePOSTModel [] 4 (.conn .ok)).1.status ≠ some 400 ∧
    handleMessagePOSTModel [1, 2, 3, 4, 5] 4 (.conn .ok) =
      (⟨some 200, true, some .put⟩, [1, 2, 3, 4]) ∧
    (handleMessagePOSTModel [1, 2, 3, 4, 5] 4 (.conn .ok)).1.status ≠ some 507 :=
  ⟨rfl, by decide, rfl, by decide⟩

/-- C7 amended: the POST handler streams the request body to CmdPost
through io.LimitReader(ArticleSizeLimit) - the body CmdPost consumes is
the request body truncated to the limit - and it never writes 507 or
400: its statuses are only 200, 409, 500 or nothing at all. -/
theorem c7_post_streams_body_never_507_or_400 (reqBody : List Nat) (limit : Nat)
    (g : PostPoolRes) :
    (handleMessagePOSTModel reqBody limit g).1.status ≠ some 507 ∧
    (handleMessagePOSTModel reqBody limit g).1.status ≠ some 400 ∧
    (∀ c, g = .conn c → (handleMessagePOSTModel reqBody limit g).2 = reqBody.take limit) := by
  rcases g with _ | _ | c
  · exact ⟨by simp [handleMessagePOSTModel], by simp [handleMessagePOSTModel],
      fun c h => by cases h⟩
  · exact ⟨by simp [handleMessagePOSTModel], by simp [handleMessagePOSTModel],
      fun c h => by cases h⟩
  · rcases c with _ | _ | _ | _ <;>
      exact ⟨by simp [handleMessagePOSTModel], by simp [handleMessagePOSTModel],
        fun c h => by simp [handleMessagePOSTModel, limitReaderAll]⟩

/-- C7 witness: the amended theorem applied to a three-byte body, limit 2
and a successful post. -/
theorem c7_post_streams_witness :
    (handleMessagePOSTModel [1, 2, 3] 2 (.conn .ok)).1.status ≠ some 507 ∧
    (handleMessagePOSTModel [1, 2, 3] 2 (.conn .ok)).2 = [1, 2] := by
  have h := c7_post_streams_body_never_507_or_400 [1, 2, 3] 2 (.conn .ok)
  exact ⟨h.1, h.2.2 .ok rfl⟩

/-- C8: the claim states that with no X-Usenet-Subject header and no s
query the Subject becomes the part of the Message-ID before the at sign
when non-empty.  The source Sets that prefix and then unconditionally
Sets the full short id over it, so posting abc@x yields Subject abc@x,
not abc. -/
theorem c8_subject_overwritten_with_full_short_id :
    hGet (synthSubject [] "" "abc@x") "Subject" = "abc@x" ∧ ("abc@x" : String) ≠ "abc" :=
  ⟨rfl, by decide⟩

/-- C10 counterexample: the claim states that a GET of an article with an
empty body responds 200 with Content-Length 0.  With a 4-byte buffer and
an empty body, io.ReadFull returns (0, io.EOF), which the read gate does
not clear - only ErrUnexpectedEOF is - so the handler answers 500 with no
Content-Length before the range logic runs, not 200. -/
theorem c10_empty_body_reads_eof_500 :
    handleGetServe [] 4 (chars "bytes=0-1") = ⟨500, none, none, .nothing⟩ ∧
    (handleGetServe [] 4 (chars "bytes=0-1")).status ≠ 200 :=
  ⟨rfl, by decide⟩

/-- C10 amended: for every GET of an article whose body is empty (0 bytes
read) and any buffer of positive length, any Range header is ignored
entirely - but because io.ReadFull returns (0, io.EOF) and the read-error
gate answers 500 before the range logic is reached, never 200, 416 or
206.  (The size > 0 guard on the range parse is real but unreachable with
an empty article: no read of 0 bytes gets past the gate.) -/
theorem c10_empty_body_500_before_ranges (rangeReq : List Char) (bufLen : Nat)
    (h : 1 ≤ bufLen) :
    handleGetServe [] bufLen rangeReq = ⟨500, none, none, .nothing⟩ := by
  have hlt : (0 : Nat) < bufLen := h
  simp [handleGetServe, readFullGate, hlt]

/-- C10 witness: the amended theorem at the default-like buffer length 4
and a concrete Range header. -/
theorem c10_empty_body_500_witness :
    handleGetServe [] 4 (chars "bytes=-2") = ⟨500, none, none, .nothing⟩ :=
  c10_empty_body_500_before_ranges (chars "bytes=-2") 4 (by norm_num)

/-- C3: in the GET/HEAD retry loop, a protocol error Puts the connection
back and continues with the next attempt, 404 is written only once
Pool.Get answers ErrNoMoreServers, and a transport error fails the
request at once with 500 and the deferred Close, performing no further
attempt: whatever schedule follows the transport error is never
consulted. -/
theorem c3_retry_put_on_protocol_close_on_transport (pre rest : List Attempt)
    (hpre : ∀ a ∈ pre, a = Attempt.connProto) :
    getRetryLoop (pre ++ Attempt.noMoreServers :: rest) =
      (.notFound404, List.replicate pre.length .put) ∧
    getRetryLoop (pre ++ Attempt.connTrans :: rest) =
      (.trans500, List.replicate pre.length .put ++ [.close]) := by
  induction pre with
  | nil => exact ⟨rfl, rfl⟩
  | cons a pre ih =>
    have ha : a = Attempt.connProto := hpre a (by simp)
    obtain ⟨ih1, ih2⟩ := ih (fun b hb => hpre b (by simp [hb]))
    subst ha
    constructor
    · simp [getRetryLoop, ih1, List.replicate_succ]
    · simp [getRetryLoop, ih2, List.replicate_succ]

/-- C3 witness: one protocol-error attempt followed by exhaustion gives
404 after one Put; one protocol-error attempt followed by a transport
error gives 500 after one Put and one Close. -/
theorem c3_retry_witness :
    getRetryLoop [Attempt.connProto, Attempt.noMoreServers] = (.notFound404, [.put]) ∧
    getRetryLoop [Attempt.connProto, Attempt.connTrans] = (.trans500, [.put, .close]) := by
  have h := c3_retry_put_on_protocol_close_on_transport [Attempt.connProto] []
    (fun a ha => by simpa using ha)
  exact ⟨h.1, h.2⟩

/-- Helper: the entries the purge keeps are exactly the strictly-young
ones, whatever the counter. -/
theorem purgeServer_keeps (expired : Int) (arr : List PoolIdle) (c : Nat) :
    (purgeServer expired arr c).1 = arr.filter (fun e => expired < e.idleStart) := by
  induction arr generalizing c with
  | nil => rfl
  | cons idle rest ih =>
    by_cases h : expired < idle.idleStart
    · simp [purgeServer, h, ih]
    · simp [purgeServer, h, ih]

/-- Helper: the idle lists after the purge, server by server. -/
theorem purgeZip_fst (expired : Int) (idles : List (List PoolIdle)) (cs : List Nat) :
    (purgeZip expired idles cs).map Prod.fst =
      idles.map (fun arr => arr.filter (fun e => expired < e.idleStart)) := by
  induction idles generalizing cs with
  | nil => rfl
  | cons a rest ih => simp [purgeZip, purgeServer_keeps, ih]

/-- C9 counterexample: the claim states that a waiter parked at capacity
is woken by the purge itself.  Feeding the purge step a state with one
expired idle entry and one parked waiter: the purge closes the entry and
frees the slot (counters 1 to 0) yet leaves the waiter parked - the queue
is untouched, no reply is sent and no allocation is started. -/
theorem c9_purge_leaves_waiter_parked :
    (stepPool purgeDemoState (.tick 60)).counters = [0] ∧
    (stepPool purgeDemoState (.tick 60)).idles = [[]] ∧
    (stepPool purgeDemoState (.tick 60)).queue = [[⟨0, 42⟩]] ∧
    (stepPool purgeDemoState (.tick 60)).replies = [] ∧
    (stepPool purgeDemoState (.tick 60)).allocating = [] :=
  ⟨rfl, rfl, rfl, rfl, rfl⟩

/-- C9 amended: the purge tick closes exactly the idle entries whose age
has reached IdleConnExpiry and frees their slots, but drives no waiter in
that step: the waiter queues, the replies and the allocations in flight
are all left untouched; waiters are woken only by Put, Close or a failed
allocation.  (Against the real controller this delays nobody: a waiter is
parked only when the idle list is empty.) -/
theorem c9_purge_closes_expired_and_drives_no_waiter (s : PoolState) (now : Int) :
    (stepPool s (.tick now)).queue = s.queue ∧
    (stepPool s (.tick now)).replies = s.replies ∧
    (stepPool s (.tick now)).allocating = s.allocating ∧
    (stepPool s (.tick now)).idles =
      s.idles.map (fun arr => arr.filter (fun e => now - s.idleExpiry < e.idleStart)) := by
  refine ⟨rfl, rfl, rfl, ?_⟩
  simp [stepPool, purgeZip_fst]

/-- Helper: an empty list never parses as an integer. -/
theorem goParseInt64_nil : goParseInt64 [] = none := rfl

/-- Helper: a successful integer parse means the list was non-empty. -/
theorem goParseInt64_ne_nil {s : List Char} {n : Int} (h : goParseInt64 s = some n) :
    s ≠ [] := by
  intro hs
  subst hs
  simp [goParseInt64] at h

/-- Helper: when every item of the list skips or fails to overlap and at
least one fails to overlap, the parseRange fold ends in errNoOverlap. -/
theorem parseRangeLoop_all_noOverlap (size : Int) (items : List (List Char)) :
    ∀ no : Bool,
      (∀ ra ∈ items, parseRangeItem size ra = .skip ∨ parseRangeItem size ra = .noOverlap) →
      (no = true ∨ ∃ ra ∈ items, parseRangeItem size ra = .noOverlap) →
      parseRangeLoop size items [] no = .error .noOverlap := by
  induction items with
  | nil =>
    intro no _ hex
    rcases hex with h1 | ⟨ra, hra, _⟩
    · subst h1; rfl
    · cases hra
  | cons ra rest ih =>
    intro no hall hex
    rcases hall ra (by simp) with hskip | hno
    · have hrest : ∀ b ∈ rest, parseRangeItem size b = .skip ∨
          parseRangeItem size b = .noOverlap := fun b hb => hall b (by simp [hb])
      have hex2 : no = true ∨ ∃ b ∈ rest, parseRangeItem size b = .noOverlap := by
        rcases hex with h1 | ⟨b, hb, hbno⟩
        · exact Or.inl h1
        · rcases List.mem_cons.mp hb with rfl | hb2
          · rw [hskip] at hbno; cases hbno
          · exact Or.inr ⟨b, hb2, hbno⟩
      simpa [parseRangeLoop, hskip] using ih no hrest hex2
    · have hrest : ∀ b ∈ rest, parseRangeItem size b = .skip ∨
          parseRangeItem size b = .noOverlap := fun b hb => hall b (by simp [hb])
      simpa [parseRangeLoop, hno] using ih true hrest (Or.inl rfl)

/-- C5: parseRange accepts only the bytes= unit; a suffix item -N keeps
the last min(N, size) bytes; an item start- keeps start through size-1;
an item start-end requires start at most end and clamps end to size-1; an
item whose start is at or past the size is marked non-overlapping without
failing; when every listed item is non-overlapping the parse fails with
errNoOverlap; and on that failure the GET handler answers 416 with
Content-Range bytes */size. -/
theorem c5_parse_range_follows_rfc :
    (∀ (s : List Char) (size : Int), s ≠ [] →
      listStartsWith (chars "bytes=") s = false → parseRange s size = .error .invalid) ∧
    (∀ (size N : Int) (e : List Char), 1 ≤ size → goParseInt64 e = some N → 0 ≤ N →
      e.head? ≠ some '-' →
      parseRangeCut size [] e = .ok ⟨size - min N size, min N size⟩) ∧
    (∀ (size st : Int) (s : List Char), 1 ≤ size → goParseInt64 s = some st → 0 ≤ st →
      st < size → parseRangeCut size s [] = .ok ⟨st, size - st⟩) ∧
    (∀ (size st en : Int) (s e : List Char), 1 ≤ size → goParseInt64 s = some st →
      goParseInt64 e = some en → 0 ≤ st → st < size → st ≤ en →
      parseRangeCut size s e = .ok ⟨st, min en (size - 1) - st + 1⟩) ∧
    (∀ (size st : Int) (s e : List Char), 1 ≤ size → goParseInt64 s = some st →
      size ≤ st → parseRangeCut size s e = .noOverlap) ∧
    (∀ (size : Int) (items : List (List Char)),
      (∀ ra ∈ items, parseRangeItem size ra = .skip ∨ parseRangeItem size ra = .noOverlap) →
      (∃ ra ∈ items, parseRangeItem size ra = .noOverlap) →
      parseRangeLoop size items [] false = .error .noOverlap) ∧
    (∀ (content : List Nat) (rangeReq : List Char), 1 ≤ (content.length : Int) →
      parseRange rangeReq (content.length : Int) = .error .noOverlap →
      (composeGet content rangeReq).status = 416 ∧
      (composeGet content rangeReq).contentRange =
        some (chars "bytes */" ++ intToChars (content.length : Int))) := by
  refine ⟨?_, ?_, ?_, ?_, ?_, ?_, ?_⟩
  · intro s size hne hpre
    simp [parseRange, hne, hpre]
  · intro size N e hsize hparse hN hhead
    have he : e ≠ [] := goParseInt64_ne_nil hparse
    have hcond : (e = [] || e.head? = some '-') = false := by
      simp [he, hhead]
    have hmin : (if N > size then size else N) = min N size := by
      rcases le_or_lt N size with h | h
      · simp [not_lt.mpr h, min_eq_left h]
      · simp [h, min_eq_right h.le]
    simp only [parseRangeCut, if_pos rfl, hcond, Bool.false_eq_true, if_false, hparse,
      not_lt.mpr hN, if_neg (not_lt.mpr hN)]
    simp [hmin]
  · intro size st s hsize hparse hst hlt
    have hs : s ≠ [] := goParseInt64_ne_nil hparse
    simp [parseRangeCut, hs, hparse, not_lt.mpr hst, not_le.mpr hlt]
  · intro size st en s e hsize hparseS hparseE hst hlt hle
    have hs : s ≠ [] := goParseInt64_ne_nil hparseS
    have he : e ≠ [] := goParseInt64_ne_nil hparseE
    have hclamp : (if en ≥ size then size - 1 else en) = min en (size - 1) := by
      rcases le_or_lt size en with h | h
      · simp [h, min_eq_right (by omega : size - 1 ≤ en)]
      · simp [not_le.mpr h, min_eq_left (by omega : en ≤ size - 1)]
    simp [parseRangeCut, hs, he, hparseS, hparseE, not_lt.mpr hst, not_le.mpr hlt,
      not_lt.mpr hle, hclamp]
  · intro size st s e hsize hparse hge
    have hs : s ≠ [] := goParseInt64_ne_nil hparse
    simp [parseRangeCut, hs, hparse, not_lt.mpr (by omega : (0 : Int) ≤ st), hge]
  · intro size items hall hex
    exact parseRangeLoop_all_noOverlap size items false hall (Or.inr hex)
  · intro content rangeReq hsize hparse
    have hpos : (0 : Int) < (content.length : Int) := by omega
    constructor
    · simp [composeGet, hpos, hparse]
    · simp [composeGet, hpos, hparse]

/-- C5 witness: the theorem instantiated on a missing unit, a suffix item,
an open-ended item, a clamped bounded item, a non-overlapping item, a
list whose only item does not overlap, and a 3-byte body with an
unsatisfiable Range header. -/
theorem c5_parse_range_witness :
    parseRange (chars "zz=1-2") 5 = .error .invalid ∧
    parseRangeCut 10 [] (chars "3") = .ok ⟨7, 3⟩ ∧
    parseRangeCut 10 (chars "4") [] = .ok ⟨4, 6⟩ ∧
    parseRangeCut 10 (chars "2") (chars "100") = .ok ⟨2, 8⟩ ∧
    parseRangeCut 10 (chars "10") (chars "12") = .noOverlap ∧
    parseRangeLoop 10 [chars "100-"] [] false = .error .noOverlap ∧
    (composeGet [1, 2, 3] (chars "bytes=7-")).status = 416 := by
  obtain ⟨h1, h2, h3, h4, h5, h6, h7⟩ := c5_parse_range_follows_rfc
  refine ⟨h1 _ 5 (by decide) (by rfl), ?_, ?_, ?_, ?_, ?_, ?_⟩
  · have := h2 10 3 (chars "3") (by norm_num) rfl (by norm_num) (by decide)
    simpa using this
  · have := h3 10 4 (chars "4") (by norm_num) rfl (by norm_num) (by norm_num)
    simpa using this
  · have := h4 10 2 100 (chars "2") (chars "100") (by norm_num) rfl rfl (by norm_num)
      (by norm_num) (by norm_num)
    simpa using this
  · exact h5 10 10 (chars "10") (chars "12") (by norm_num) rfl (by norm_num)
  · refine h6 10 [chars "100-"] ?_ ⟨chars "100-", by simp, by rfl⟩
    intro ra hra
    rcases List.mem_singleton.mp hra with rfl
    exact Or.inr (by rfl)
  · exact (h7 [1, 2, 3] (chars "bytes=7-") (by norm_num) (by rfl)).1
